import Mathlib

/-!
Shallow embedding of the scroll-and-snap engine of a multi-column wheel
picker (source: src/lib/components/PickerItem.tsx, PickerColumn part, and
the Picker root component).

Conventions of the embedding:
* scroll offsets and the geometry configuration live in an arbitrary
  linear ordered field `α` with a floor structure (instantiated at `ℚ` for
  concrete evaluation; the source computes with IEEE doubles, idealised
  here as exact field arithmetic);
* `Math.round` of JavaScript rounds halves toward positive infinity, which
  is exactly Mathlib's `round` (`round x = ⌊x + 1/2⌋`);
* a JavaScript member access `options[i].value` that would dereference
  `undefined` (index out of range) throws a TypeError; fallible handlers
  therefore return `Option`, with `none` modelling the thrown exception;
* the owner-supplied picker value object is modelled as a partial mapping
  `String → Option String` (`value[key]` is `undefined` exactly when the
  mapping returns `none`);
* calls into the shared store (`change`, `focusChange`) are reified as
  `PickerEvent` values emitted by each handler, so that "handler X never
  calls change" is a statement about the emitted event list.
-/

namespace MobilePicker

/-- Per-column configuration as read by `PickerColumn` from the picker
context: `height`, `itemHeight`, `selectedItemHeight`, `topOffset`, and the
registered option values in visual order (`optionGroups[key]`). -/
structure ColumnConfig (α : Type) where
  height : α
  itemHeight : α
  selectedItemHeight : α
  topOffset : α
  options : List String
deriving DecidableEq

variable {α : Type} [LinearOrderedField α] [FloorRing α]

/-- Source: `minTranslate = height / 2 - itemHeight * options.length +
itemHeight / 2 - topOffset` (PickerItem.tsx line 146). -/
def minTranslate (cfg : ColumnConfig α) : α :=
  cfg.height / 2 - cfg.itemHeight * (cfg.options.length : α) + cfg.itemHeight / 2 - cfg.topOffset

/-- Source: `maxTranslate = height / 2 - selectedItemHeight / 2 - topOffset`
(PickerItem.tsx line 151). -/
def maxTranslate (cfg : ColumnConfig α) : α :=
  cfg.height / 2 - cfg.selectedItemHeight / 2 - cfg.topOffset

/-- The settle translate the column computes for an index: `height / 2 -
selectedItemHeight / 2 - index * itemHeight - topOffset` (PickerItem.tsx
lines 156-161 and 181-186). -/
def settleOffset (cfg : ColumnConfig α) (i : ℤ) : α :=
  cfg.height / 2 - cfg.selectedItemHeight / 2 - (i : α) * cfg.itemHeight - cfg.topOffset

/-- The `nextActiveIndex` computation shared verbatim by
`handleScrollerTranslateSettled` (lines 169-177) and
`handleScrollerTranslateUpdating` (lines 201-209):
`if (t >= maxTranslate) 0 else if (t <= minTranslate) options.length - 1
else -Math.round((t - maxTranslate) / itemHeight)`. -/
def resolveIndex (cfg : ColumnConfig α) (t : α) : ℤ :=
  if maxTranslate cfg ≤ t then 0
  else if t ≤ minTranslate cfg then (cfg.options.length : ℤ) - 1
  else -round ((t - maxTranslate cfg) / cfg.itemHeight)

/-- JavaScript array indexing `l[i]` (as a value lookup): `undefined`
(`none`) for a negative or out-of-range index. -/
def jsGetElem (l : List String) (i : ℤ) : Option String :=
  if 0 ≤ i then l.get? i.toNat else none

/-- The owner-supplied picker value object: `value[key]` is `undefined`
exactly when the mapping yields `none`. -/
abbrev PickerValue := String → Option String

/-- Source: `triggerChange` of the Picker root component:
`if (value[key] === nextValue) return false;
 const nextPickerValue = { ...value, [key]: nextValue };
 onChange(nextPickerValue, key); return true`.
The result records the returned boolean and, when the owner callback was
invoked, its argument pair `(nextPickerValue, key)`; `none` means the
callback was not invoked at all. The spread with one key overridden is the
pointwise update of the mapping. -/
def triggerChange (value : PickerValue) (key nextValue : String) :
    Bool × Option (PickerValue × String) :=
  if value key = some nextValue then (false, none)
  else (true, some (Function.update value key (some nextValue), key))

/-- A call a column handler makes into the shared store. -/
inductive PickerEvent where
  | change (key value : String)
  | focusChange (key value : String)
deriving DecidableEq

/-- Whether an event is a commit (a `change` call). -/
def isChangeEvent : PickerEvent → Bool
  | PickerEvent.change _ _ => true
  | PickerEvent.focusChange _ _ => false

/-- Source: `handleScrollerTranslateSettled` (lines 168-187): resolve
`nextActiveIndex` from the current translate, read
`options[nextActiveIndex].value` (a TypeError — `none` — when out of
range), call `change`; when `change` returns `false`, locally set the
scroller translate to the settle offset of the resolved index. The result
is the emitted `change` event together with the locally assigned translate
(`none` when the handler leaves the translate to the re-render). -/
def handleScrollerTranslateSettled (cfg : ColumnConfig α) (pv : PickerValue)
    (key : String) (t : α) : Option (PickerEvent × Option α) :=
  match jsGetElem cfg.options (resolveIndex cfg t) with
  | none => none
  | some v =>
      some (PickerEvent.change key v,
        if (triggerChange pv key v).1 then none
        else some (settleOffset cfg (resolveIndex cfg t)))

/-- Source: `handleScrollerTranslateUpdating` (lines 200-212): resolve the
index the same way and publish a `focusChange` with that option's value
(TypeError — `none` — when the access is out of range). -/
def handleScrollerTranslateUpdating (cfg : ColumnConfig α) (key : String)
    (t : α) : Option PickerEvent :=
  match jsGetElem cfg.options (resolveIndex cfg t) with
  | none => none
  | some v => some (PickerEvent.focusChange key v)

/-- Source: `updateScrollerWhileMoving` (lines 220-232), parametrised by
the power function `pw` standing for `Math.pow(·, 0.8)`:
`if (next < minTranslate) next = minTranslate - pow(minTranslate - next, 0.8)
 else if (next > maxTranslate) next = maxTranslate + pow(next - maxTranslate, 0.8)`. -/
def updateScrollerWhileMoving (pw : α → α) (minT maxT next : α) : α :=
  if next < minT then minT - pw (minT - next)
  else if maxT < next then maxT + pw (next - maxT)
  else next

/-- The real power function the source passes: `Math.pow(x, 0.8)`. -/
noncomputable def mathPow08 (x : ℝ) : ℝ := x ^ (0.8 : ℝ)

/-- The per-column gesture state: `scrollerTranslate`,
`startScrollerTranslate`, `startTouchY` and `isMoving` (lines 154,
215-218). -/
structure ColumnState (α : Type) where
  scrollerTranslate : α
  startScrollerTranslate : α
  startTouchY : α
  isMoving : Bool
deriving DecidableEq

/-- Source: `handleTouchStart` (lines 234-240): capture the touch y and the
current scroller translate. -/
def handleTouchStart (s : ColumnState α) (pageY : α) : ColumnState α :=
  ⟨s.scrollerTranslate, s.scrollerTranslate, pageY, s.isMoving⟩

/-- Source: `handleTouchMove` (lines 242-265): set `isMoving`, rubber-band
the proposed translate `startScrollerTranslate + pageY - startTouchY`, and
run the focus-updating handler. Emits the focus event (empty list when the
updating handler throws). -/
def handleTouchMove (cfg : ColumnConfig α) (pw : α → α) (key : String)
    (s : ColumnState α) (pageY : α) : ColumnState α × List PickerEvent :=
  let t := updateScrollerWhileMoving pw (minTranslate cfg) (maxTranslate cfg)
    (s.startScrollerTranslate + pageY - s.startTouchY)
  (⟨t, s.startScrollerTranslate, s.startTouchY, true⟩,
    (handleScrollerTranslateUpdating cfg key t).toList)

/-- Source: `handleTouchEnd` (lines 267-276): a no-op unless `isMoving`;
otherwise clear the gesture state and run the settle handler (whose
TypeError, if any, propagates as `none`). -/
def handleTouchEnd (cfg : ColumnConfig α) (pv : PickerValue) (key : String)
    (s : ColumnState α) : Option (ColumnState α × List PickerEvent) :=
  if s.isMoving then
    match handleScrollerTranslateSettled cfg pv key s.scrollerTranslate with
    | none => none
    | some (ev, newT) =>
        some (⟨newT.getD s.scrollerTranslate, 0, 0, false⟩, [ev])
  else some (s, [])

/-- Source: `handleTouchCancel` (lines 278-286): a no-op unless `isMoving`;
otherwise restore the scroller translate captured at gesture start and
clear the gesture state. -/
def handleTouchCancel (s : ColumnState α) : ColumnState α :=
  if s.isMoving then ⟨s.startScrollerTranslate, 0, 0, false⟩ else s

/-- A sequence of `touchmove` events with the given page-y coordinates,
threaded through `handleTouchMove`, accumulating the emitted events. -/
def runTouchMoves (cfg : ColumnConfig α) (pw : α → α) (key : String) :
    ColumnState α → List α → ColumnState α × List PickerEvent
  | s, [] => (s, [])
  | s, y :: ys =>
      let m := handleTouchMove cfg pw key s y
      let r := runTouchMoves cfg pw key m.1 ys
      (r.1, m.2 ++ r.2)

/-- Source: JavaScript `Array.prototype.findIndex`: index of the first
element satisfying the predicate, `-1` when there is none. -/
def jsFindIndex (p : String → Bool) : List String → ℤ
  | [] => -1
  | v :: vs =>
      if p v then 0
      else if jsFindIndex p vs < 0 then -1 else jsFindIndex p vs + 1

/-- Source: the `selectedIndex` memo of `PickerColumn` (lines 136-142):
`let index = options.findIndex((o) => o.value === value);
 if (index < 0) index = 0`. `value` is `groupValue[key]`, possibly
`undefined`; the strict equality with a string option value holds exactly
when `value` is `some` of it. -/
def selectedIndex (cfg : ColumnConfig α) (value : Option String) : ℤ :=
  if jsFindIndex (fun v => decide (value = some v)) cfg.options < 0 then 0
  else jsFindIndex (fun v => decide (value = some v)) cfg.options

/-- Source: the effect of lines 155-162: on (re)derivation the column sets
`scrollerTranslate = height / 2 - selectedItemHeight / 2 -
selectedIndex * itemHeight - topOffset`. -/
def columnEffectTranslate (cfg : ColumnConfig α) (value : Option String) : α :=
  cfg.height / 2 - cfg.selectedItemHeight / 2 -
    (selectedIndex cfg value : α) * cfg.itemHeight - cfg.topOffset

/-- Stated from the spec's words, for comparison with `resolveIndex`: in
the interior the spec prescribes `round((maxOffset - offset) / itemHeight)`
with ties at half steps going away from zero (for the positive quantity in
question, upward — Mathlib's `round` does exactly this on positive
arguments). -/
def specInteriorIndex (cfg : ColumnConfig α) (t : α) : ℤ :=
  round ((maxTranslate cfg - t) / cfg.itemHeight)

/-- Default-geometry five-option column used by concrete instantiations:
height 216, itemHeight 36, selectedItemHeight 36, topOffset 0. -/
def cfgStd : ColumnConfig ℚ := ⟨216, 36, 36, 0, ["a", "b", "c", "d", "e"]⟩



/-- Configuration exhibiting `minTranslate = maxTranslate` with two
options: height 216, itemHeight 36, selectedItemHeight 108 (both bounds are
54). -/
def cfgC1 : ColumnConfig ℚ := ⟨216, 36, 108, 0, ["a", "b"]⟩

/-- C1 (amended): for a column with at least one registered option, the
shared index resolution maps any offset `o ≥ maxOffset` to index 0, and any
offset `o ≤ minOffset` to index `optionCount - 1` provided `o < maxOffset`:
the first rule takes priority when both bounds are crossed at once, which
can happen only in configurations where `minOffset ≥ maxOffset`. -/
theorem resolveIndex_clamp_amended (cfg : ColumnConfig α) (t : α)
    (hn : 1 ≤ cfg.options.length) :
    (maxTranslate cfg ≤ t → resolveIndex cfg t = 0) ∧
    (t ≤ minTranslate cfg → t < maxTranslate cfg →
      resolveIndex cfg t = (cfg.options.length : ℤ) - 1) := by
  constructor
  · intro h
    unfold resolveIndex
    rw [if_pos h]
  · intro h1 h2
    unfold resolveIndex
    rw [if_neg (not_le.mpr h2), if_pos h1]

/-- C1 counterexample: in `cfgC1` both bounds equal 54, so the offset 54
satisfies `o ≤ minOffset` with `optionCount - 1 = 1`, yet the code resolves
it to 0 (the `o ≥ maxOffset` branch wins). -/
theorem resolveIndex_clamp_cx :
    1 ≤ cfgC1.options.length ∧ (54 : ℚ) ≤ minTranslate cfgC1 ∧
    (cfgC1.options.length : ℤ) - 1 = 1 ∧ resolveIndex cfgC1 (54 : ℚ) = 0 := by
  refine ⟨by decide, ?_, by decide, ?_⟩ <;>
    norm_num [minTranslate, maxTranslate, resolveIndex, cfgC1]

/-- C1 witness: on the default five-option geometry, offset 90 (the upper
bound) resolves to 0 and offset −60 (below the lower bound −54) resolves to
4. -/
theorem resolveIndex_clamp_witness :
    resolveIndex cfgStd (90 : ℚ) = 0 ∧ resolveIndex cfgStd (-60 : ℚ) = 4 := by
  have h1 := resolveIndex_clamp_amended (α := ℚ) cfgStd 90 (by decide)
  have h2 := resolveIndex_clamp_amended (α := ℚ) cfgStd (-60) (by decide)
  constructor
  · exact h1.1 (by norm_num [maxTranslate, cfgStd])
  · have h3 := h2.2 (by norm_num [minTranslate, cfgStd])
      (by norm_num [maxTranslate, cfgStd])
    rw [h3]
    decide

/-- C2 (amended): strictly between the bounds the code resolves
`index = ⌈(maxOffset - offset)/itemHeight - 1/2⌉`; this agrees with the
claimed `round((maxOffset - offset)/itemHeight)` except exactly at half
steps, where the code picks the lower (nearer-`maxOffset`) index rather
than rounding the tie away from zero. -/
theorem resolveIndex_interior_amended (cfg : ColumnConfig α) (t : α)
    (h1 : minTranslate cfg < t) (h2 : t < maxTranslate cfg) :
    resolveIndex cfg t = ⌈(maxTranslate cfg - t) / cfg.itemHeight - 1 / 2⌉ ∧
    ((∀ k : ℤ, (maxTranslate cfg - t) / cfg.itemHeight ≠ (k : α) + 1 / 2) →
      resolveIndex cfg t = specInteriorIndex cfg t) := by
  have hres : resolveIndex cfg t
      = -round ((t - maxTranslate cfg) / cfg.itemHeight) := by
    unfold resolveIndex
    rw [if_neg (not_le.mpr h2), if_neg (not_le.mpr h1)]
  set d : α := (maxTranslate cfg - t) / cfg.itemHeight with hd
  have hneg : (t - maxTranslate cfg) / cfg.itemHeight = -d := by
    rw [hd, ← neg_div, neg_sub]
  have hceil : resolveIndex cfg t = ⌈d - 1 / 2⌉ := by
    rw [hres, hneg, round_eq]
    have he : -d + 1 / 2 = -(d - 1 / 2) := by ring
    rw [he, Int.floor_neg, neg_neg]
  refine ⟨hceil, ?_⟩
  intro hk
  have hnotint : ∀ m : ℤ, d - 1 / 2 ≠ (m : α) := by
    intro m hm
    exact hk m (by linarith)
  have hfl : ⌈d - 1 / 2⌉ = ⌊d - 1 / 2⌋ + 1 := by
    refine le_antisymm (Int.ceil_le_floor_add_one _) ?_
    by_contra hcon
    push_neg at hcon
    have hle : ⌈d - 1 / 2⌉ ≤ ⌊d - 1 / 2⌋ := by omega
    have hc1 := Int.le_ceil (d - 1 / 2)
    have hc2 := Int.floor_le (d - 1 / 2)
    have hle' : ((⌈d - 1 / 2⌉ : ℤ) : α) ≤ ((⌊d - 1 / 2⌋ : ℤ) : α) := by
      exact_mod_cast hle
    exact hnotint ⌊d - 1 / 2⌋ (le_antisymm (le_trans hc1 hle') hc2)
  rw [hceil, hfl]
  unfold specInteriorIndex
  rw [← hd, round_eq]
  have he2 : d + 1 / 2 = (d - 1 / 2) + 1 := by ring
  rw [he2, Int.floor_add_one]

/-- C2 counterexample: on the default five-option geometry the offset 36 is
strictly interior (−54 < 36 < 90) and sits exactly 1.5 item heights below
`maxOffset`; the code resolves it to index 1 whereas
round-half-away-from-zero prescribes 2. -/
theorem resolveIndex_interior_cx :
    minTranslate cfgStd < (36 : ℚ) ∧ (36 : ℚ) < maxTranslate cfgStd ∧
    resolveIndex cfgStd (36 : ℚ) = 1 ∧ specInteriorIndex cfgStd (36 : ℚ) = 2 := by
  refine ⟨?_, ?_, ?_, ?_⟩ <;>
    norm_num [minTranslate, maxTranslate, resolveIndex, specInteriorIndex,
      cfgStd, round_eq]

/-- C2 witness: at the non-tie interior offset 30 (5/3 item heights below
`maxOffset`) the code and the spec's rounding agree. -/
theorem resolveIndex_interior_witness :
    resolveIndex cfgStd (30 : ℚ) = specInteriorIndex cfgStd (30 : ℚ) := by
  have h := resolveIndex_interior_amended (α := ℚ) cfgStd 30
    (by norm_num [minTranslate, cfgStd]) (by norm_num [maxTranslate, cfgStd])
  refine h.2 ?_
  intro k hk
  have hd : (maxTranslate cfgStd - 30) / cfgStd.itemHeight = 5 / 3 := by
    norm_num [maxTranslate, cfgStd]
  rw [hd] at hk
  have h6 : (6 : ℚ) * (k : ℚ) = 7 := by linarith
  have h7 : (6 * k : ℤ) = 7 := by exact_mod_cast h6
  omega

/-- Configuration with `selectedItemHeight ≠ itemHeight`: height 216,
itemHeight 36, selectedItemHeight 72, two options. -/
def cfgC9 : ColumnConfig ℚ := ⟨216, 36, 72, 0, ["a", "b"]⟩

/-- C9 (amended): `maxOffset` always equals the settle offset of index 0;
`minOffset` equals the settle offset of the last index plus
`(selectedItemHeight - itemHeight) / 2`, so the two coincide exactly when
`selectedItemHeight = itemHeight` (the bound is computed from
`itemHeight / 2`, not `selectedItemHeight / 2`). -/
theorem translateBounds_amended (cfg : ColumnConfig α)
    (hn : 1 ≤ cfg.options.length) :
    maxTranslate cfg = settleOffset cfg 0 ∧
    minTranslate cfg = settleOffset cfg ((cfg.options.length : ℤ) - 1)
      + (cfg.selectedItemHeight - cfg.itemHeight) / 2 ∧
    (cfg.selectedItemHeight = cfg.itemHeight →
      minTranslate cfg = settleOffset cfg ((cfg.options.length : ℤ) - 1)) := by
  unfold minTranslate maxTranslate settleOffset
  refine ⟨by push_cast; ring, by push_cast; ring, fun hs => ?_⟩
  rw [hs]
  push_cast
  ring

/-- C9 counterexample: with selectedItemHeight 72 and itemHeight 36 over
two options, `minOffset = 54` but the settle offset of the last option is
36. -/
theorem translateBounds_cx :
    1 ≤ cfgC9.options.length ∧
    minTranslate cfgC9 ≠ settleOffset cfgC9 ((cfgC9.options.length : ℤ) - 1) := by
  refine ⟨by decide, ?_⟩
  norm_num [minTranslate, settleOffset, cfgC9]

/-- C9 witness: on the default geometry (where selectedItemHeight equals
itemHeight) both bounds coincide with the extreme settle offsets. -/
theorem translateBounds_witness :
    maxTranslate cfgStd = settleOffset cfgStd 0 ∧
    minTranslate cfgStd = settleOffset cfgStd ((cfgStd.options.length : ℤ) - 1) := by
  have h := translateBounds_amended (α := ℚ) cfgStd (by decide)
  exact ⟨h.1, h.2.2 rfl⟩

/-- Configuration with `selectedItemHeight = 3 * itemHeight` over three
options (height 216, itemHeight 36, selectedItemHeight 108): the settle
offset of index 1 lands exactly on `minTranslate`. -/
def cfgC3 : ColumnConfig ℚ := ⟨216, 36, 108, 0, ["a", "b", "c"]⟩

/-- C3 (amended): for every valid index `i` the settle-offset/resolution
round trip is stable, provided additionally
`selectedItemHeight < 3 * itemHeight`; without that proviso the settle
offset of an interior index can land at or below `minOffset` and resolve to
`optionCount - 1` instead. -/
theorem settleRoundtrip_amended (cfg : ColumnConfig α) (i : ℕ)
    (hh : 0 < cfg.itemHeight)
    (hsel : cfg.selectedItemHeight < 3 * cfg.itemHeight)
    (hi : i < cfg.options.length) :
    resolveIndex cfg (settleOffset cfg (i : ℤ)) = (i : ℤ) ∧
    settleOffset cfg (resolveIndex cfg (settleOffset cfg (i : ℤ)))
      = settleOffset cfg (i : ℤ) := by
  suffices hmain : resolveIndex cfg (settleOffset cfg (i : ℤ)) = (i : ℤ) by
    exact ⟨hmain, by rw [hmain]⟩
  have hts : settleOffset cfg (i : ℤ)
      = maxTranslate cfg - (i : α) * cfg.itemHeight := by
    unfold settleOffset maxTranslate
    push_cast
    ring
  rcases Nat.eq_zero_or_pos i with hz | hpos
  · subst hz
    unfold resolveIndex
    rw [if_pos (by rw [hts]; push_cast; simp)]
    simp
  · have hlt : settleOffset cfg (i : ℤ) < maxTranslate cfg := by
      rw [hts]
      have hpos' : 0 < (i : α) * cfg.itemHeight := by
        apply mul_pos _ hh
        exact_mod_cast hpos
      linarith
    unfold resolveIndex
    rw [if_neg (not_le.mpr hlt)]
    by_cases hmin : settleOffset cfg (i : ℤ) ≤ minTranslate cfg
    · rw [if_pos hmin]
      have hgap : ¬ i + 2 ≤ cfg.options.length := by
        intro hn2
        have h2le : (2 : α) ≤ (cfg.options.length : α) - (i : α) := by
          have hcast : ((i : ℕ) : α) + 2 ≤ (cfg.options.length : α) := by
            exact_mod_cast hn2
          linarith
        have hdiff : settleOffset cfg (i : ℤ) - minTranslate cfg
            = cfg.itemHeight * ((cfg.options.length : α) - (i : α))
              - (cfg.itemHeight + cfg.selectedItemHeight) / 2 := by
          unfold settleOffset minTranslate
          push_cast
          ring
        have h1 : cfg.itemHeight * 2
            ≤ cfg.itemHeight * ((cfg.options.length : α) - (i : α)) :=
          mul_le_mul_of_nonneg_left h2le hh.le
        have hpos2 : 0 < settleOffset cfg (i : ℤ) - minTranslate cfg := by
          rw [hdiff]
          linarith
        linarith
      omega
    · rw [if_neg hmin]
      have harg : (settleOffset cfg (i : ℤ) - maxTranslate cfg) / cfg.itemHeight
          = -(i : α) := by
        rw [hts, sub_sub_cancel_left, neg_div, mul_div_cancel_right₀ _ hh.ne']
      rw [harg]
      have hcast : -(i : α) = (((-(i : ℕ) : ℤ) : ℤ) : α) := by push_cast; ring
      rw [hcast, round_intCast]
      simp

/-- C3 counterexample: in `cfgC3` (itemHeight 36 > 0, three options) the
settle offset of index 1 is 18, which equals `minTranslate`, so it resolves
to index 2; re-settling gives −18 ≠ 18 and the round trip is not stable
even though the claim's hypotheses hold. -/
theorem settleRoundtrip_cx :
    (0 : ℚ) < cfgC3.itemHeight ∧ (1 : ℕ) < cfgC3.options.length ∧
    settleOffset cfgC3 (resolveIndex cfgC3 (settleOffset cfgC3 1))
      ≠ settleOffset cfgC3 1 := by
  refine ⟨by norm_num [cfgC3], by decide, ?_⟩
  have h1 : settleOffset cfgC3 1 = 18 := by norm_num [settleOffset, cfgC3]
  have h2 : resolveIndex cfgC3 (18 : ℚ) = 2 := by
    norm_num [resolveIndex, minTranslate, maxTranslate, cfgC3]
  rw [h1, h2]
  norm_num [settleOffset, cfgC3]

/-- C3 witness: on the default five-option geometry the round trip is
stable at index 2. -/
theorem settleRoundtrip_witness :
    settleOffset cfgStd (resolveIndex cfgStd (settleOffset cfgStd 2))
      = settleOffset cfgStd 2 := by
  have h := settleRoundtrip_amended (α := ℚ) cfgStd 2 (by norm_num [cfgStd])
    (by norm_num [cfgStd]) (by decide)
  simpa using h.2

/-- One-option configuration with `selectedItemHeight > itemHeight`
(height 216, itemHeight 36, selectedItemHeight 48): its bounds are
`minTranslate = 90 > maxTranslate = 84`. -/
def cfgC6 : ColumnConfig ℝ := ⟨216, 36, 48, 0, ["a"]⟩

/-- C6 (amended): the rubber-band clamp equals
`minOffset - (minOffset - raw)^0.8` when `raw < minOffset`;
`maxOffset + (raw - maxOffset)^0.8` when `raw > maxOffset` **and**
`raw ≥ minOffset` (the overscroll-below rule takes priority when both
bounds are crossed, possible only when `minOffset > maxOffset`); and `raw`
itself when `minOffset ≤ raw ≤ maxOffset`. -/
theorem rubberBand_amended (minT maxT x : ℝ) :
    (x < minT → updateScrollerWhileMoving mathPow08 minT maxT x
        = minT - (minT - x) ^ (0.8 : ℝ)) ∧
    (maxT < x → minT ≤ x → updateScrollerWhileMoving mathPow08 minT maxT x
        = maxT + (x - maxT) ^ (0.8 : ℝ)) ∧
    (minT ≤ x → x ≤ maxT → updateScrollerWhileMoving mathPow08 minT maxT x = x) := by
  refine ⟨fun h => ?_, fun h1 h2 => ?_, fun h1 h2 => ?_⟩
  · unfold updateScrollerWhileMoving mathPow08
    rw [if_pos h]
  · unfold updateScrollerWhileMoving mathPow08
    rw [if_neg (not_lt.mpr h2), if_pos h1]
  · unfold updateScrollerWhileMoving
    rw [if_neg (not_lt.mpr h1), if_neg (not_lt.mpr h2)]

/-- C6 counterexample: in `cfgC6` the raw offset 87 exceeds
`maxTranslate = 84`, yet the clamp returns `90 - 3^0.8` (the
`raw < minTranslate` branch), not the claimed `84 + 3^0.8`. -/
theorem rubberBand_cx :
    maxTranslate cfgC6 < (87 : ℝ) ∧
    updateScrollerWhileMoving mathPow08 (minTranslate cfgC6) (maxTranslate cfgC6) 87
      ≠ maxTranslate cfgC6 + ((87 : ℝ) - maxTranslate cfgC6) ^ (0.8 : ℝ) := by
  have hmin : minTranslate cfgC6 = 90 := by norm_num [minTranslate, cfgC6]
  have hmax : maxTranslate cfgC6 = 84 := by norm_num [maxTranslate, cfgC6]
  rw [hmin, hmax]
  refine ⟨by norm_num, ?_⟩
  have hc : updateScrollerWhileMoving mathPow08 (90 : ℝ) 84 87
      = 90 - (3 : ℝ) ^ (0.8 : ℝ) := by
    unfold updateScrollerWhileMoving mathPow08
    rw [if_pos (by norm_num : (87 : ℝ) < 90)]
    norm_num
  rw [hc, show (87 : ℝ) - 84 = 3 by norm_num]
  intro he
  have hlt : (3 : ℝ) ^ (0.8 : ℝ) < 3 := by
    calc (3 : ℝ) ^ (0.8 : ℝ) < 3 ^ (1 : ℝ) :=
          Real.rpow_lt_rpow_of_exponent_lt (by norm_num) (by norm_num)
      _ = 3 := Real.rpow_one 3
  linarith

/-- C6 witness: with bounds 0 and 10, the in-range raw 5 is returned
unchanged and the overscroll raw 11 maps to `10 + 1^0.8 = 11`. -/
theorem rubberBand_witness :
    updateScrollerWhileMoving mathPow08 (0 : ℝ) 10 5 = 5 ∧
    updateScrollerWhileMoving mathPow08 (0 : ℝ) 10 11 = 11 := by
  have h5 := (rubberBand_amended 0 10 5).2.2 (by norm_num) (by norm_num)
  have h11 := (rubberBand_amended 0 10 11).2.1 (by norm_num) (by norm_num)
  refine ⟨h5, ?_⟩
  rw [h11, show (11 : ℝ) - 10 = 1 by norm_num, Real.one_rpow]
  norm_num

/-- C4: `change(key, v)` returns `false` and performs no owner callback iff
`v` equals the current value for `key`; otherwise it returns `true` and
invokes the callback exactly once, with `key` and a mapping that maps `key`
to `v` and agrees with the old mapping on every other key. (The source
builds the new mapping as a fresh shallow copy, so in this purely
applicative model the old mapping is untouched by construction.) -/
theorem triggerChange_spec (pv : PickerValue) (key v : String) :
    ((triggerChange pv key v).1 = false ∧ (triggerChange pv key v).2 = none
        ↔ pv key = some v) ∧
    (pv key ≠ some v →
      (triggerChange pv key v).1 = true ∧
      ∃ m : PickerValue, (triggerChange pv key v).2 = some (m, key) ∧
        m key = some v ∧ ∀ k : String, k ≠ key → m k = pv k) := by
  by_cases h : pv key = some v
  · refine ⟨by simp [triggerChange, h], fun hc => absurd h hc⟩
  · refine ⟨by simp [triggerChange, h], fun _ => ?_⟩
    refine ⟨by simp [triggerChange, h],
      Function.update pv key (some v), by simp [triggerChange, h], ?_, ?_⟩
    · simp
    · intro k hk
      exact Function.update_noteq hk _ _

/-- Mapping holding value "x" at key "a" and nothing elsewhere. -/
def pvW : PickerValue := fun k => if k = "a" then some "x" else none

/-- C4 witness: on `pvW`, changing key "a" to "y" commits (returns `true`)
while re-submitting the current value "x" declines with no callback. -/
theorem triggerChange_spec_witness :
    (triggerChange pvW "a" "y").1 = true ∧ (triggerChange pvW "a" "x").1 = false ∧
    (triggerChange pvW "a" "x").2 = none := by
  have h1 := (triggerChange_spec pvW "a" "y").2 (by decide)
  have h2 := (triggerChange_spec pvW "a" "x").1.mpr (by decide)
  exact ⟨h1.1, h2.1, h2.2⟩

/-- C8: with zero registered options the settle handler models a thrown
TypeError (`none`): `nextActiveIndex` clamps to 0 or −1 but
`options[nextActiveIndex]` is `undefined`, so the `.value` access throws
before `change` can be called — no commit is attempted, but the error does
escape, contrary to the spec's "must not throw". -/
theorem settleEmpty_code_bug (cfg : ColumnConfig α) (h0 : cfg.options = [])
    (pv : PickerValue) (key : String) (t : α) :
    handleScrollerTranslateSettled cfg pv key t = none := by
  unfold handleScrollerTranslateSettled
  have hget : jsGetElem cfg.options (resolveIndex cfg t) = none := by
    rw [h0]
    unfold jsGetElem
    split
    · simp
    · rfl
  rw [hget]

/-- Zero-option column at the default geometry. -/
def cfgC8 : ColumnConfig ℚ := ⟨216, 36, 36, 0, []⟩

/-- C8 witness: the concrete zero-option column at translate 0 settles into
the modelled TypeError. -/
theorem settleEmpty_code_bug_witness :
    handleScrollerTranslateSettled cfgC8 (fun _ => none) "k" (0 : ℚ) = none :=
  settleEmpty_code_bug cfgC8 rfl (fun _ => none) "k" 0

/-- C5: a touch end on a moving column clears the gesture state, resolves
the index from the current offset, emits exactly one `change` call carrying
that index's option value, and — exactly when `change` returns `false` —
itself assigns the settle offset of that index to the scroller translate
(otherwise the translate is left for the re-render). -/
theorem touchEnd_commits (cfg : ColumnConfig α) (pv : PickerValue) (key v : String)
    (s : ColumnState α) (hm : s.isMoving = true)
    (hv : jsGetElem cfg.options (resolveIndex cfg s.scrollerTranslate) = some v) :
    handleTouchEnd cfg pv key s = some
      (⟨if (triggerChange pv key v).1 then s.scrollerTranslate
          else settleOffset cfg (resolveIndex cfg s.scrollerTranslate),
        0, 0, false⟩,
       [PickerEvent.change key v]) := by
  have hsettle : handleScrollerTranslateSettled cfg pv key s.scrollerTranslate
      = some (PickerEvent.change key v,
          if (triggerChange pv key v).1 then none
          else some (settleOffset cfg (resolveIndex cfg s.scrollerTranslate))) := by
    unfold handleScrollerTranslateSettled
    rw [hv]
  unfold handleTouchEnd
  rw [hm, hsettle]
  cases hc : (triggerChange pv key v).1
  · simp [hc]
  · simp [hc]

/-- Mapping whose every key currently holds "c". -/
def pvC : PickerValue := fun _ => some "c"

/-- C5 witness: on the default geometry at translate 17 (resolving to
index 2, option "c"), with the committed value already "c", the touch end
emits the `change` call and locally snaps the translate to the settle
offset 18. -/
theorem touchEnd_commits_witness :
    handleTouchEnd cfgStd pvC "col" ⟨17, 0, 0, true⟩
      = some (⟨18, 0, 0, false⟩, [PickerEvent.change "col" "c"]) := by
  have hr : resolveIndex cfgStd (17 : ℚ) = 2 := by
    norm_num [resolveIndex, minTranslate, maxTranslate, cfgStd, round_eq]
  have hv : jsGetElem cfgStd.options (resolveIndex cfgStd (17 : ℚ)) = some "c" := by
    rw [hr]
    decide
  have h := touchEnd_commits (α := ℚ) cfgStd pvC "col" "c" ⟨17, 0, 0, true⟩ rfl hv
  rw [h]
  have hc : (triggerChange pvC "col" "c").1 = false := by decide
  rw [hc]
  simp only [Bool.false_eq_true, if_false]
  have hs : settleOffset cfgStd (resolveIndex cfgStd (17 : ℚ)) = 18 := by
    rw [hr]
    norm_num [settleOffset, cfgStd]
  rw [hs]

/-- A touch-move sequence never changes the translate captured at gesture
start. -/
theorem runTouchMoves_start (cfg : ColumnConfig α) (pw : α → α) (key : String)
    (ys : List α) (s : ColumnState α) :
    (runTouchMoves cfg pw key s ys).1.startScrollerTranslate
      = s.startScrollerTranslate := by
  induction ys generalizing s with
  | nil => rfl
  | cons y ys ih =>
      simp only [runTouchMoves]
      rw [ih]
      rfl

/-- After at least one touch move the column is in the moving state. -/
theorem runTouchMoves_isMoving (cfg : ColumnConfig α) (pw : α → α) (key : String)
    (y : α) (ys : List α) (s : ColumnState α) :
    (runTouchMoves cfg pw key s (y :: ys)).1.isMoving = true := by
  induction ys generalizing s y with
  | nil => rfl
  | cons y2 ys ih =>
      simp only [runTouchMoves]
      exact ih _ _

/-- The focus-updating handler only ever emits `focusChange` events. -/
theorem updating_noChange (cfg : ColumnConfig α) (key : String) (t : α) :
    ∀ e ∈ (handleScrollerTranslateUpdating cfg key t).toList,
      isChangeEvent e = false := by
  intro e he
  unfold handleScrollerTranslateUpdating at he
  cases h : jsGetElem cfg.options (resolveIndex cfg t) with
  | none => rw [h] at he; simp at he
  | some v =>
      rw [h] at he
      simp at he
      rw [he]
      rfl

/-- Touch-move sequences emit no `change` call. -/
theorem runTouchMoves_noChange (cfg : ColumnConfig α) (pw : α → α) (key : String)
    (ys : List α) (s : ColumnState α) :
    ∀ e ∈ (runTouchMoves cfg pw key s ys).2, isChangeEvent e = false := by
  induction ys generalizing s with
  | nil => intro e he; simp [runTouchMoves] at he
  | cons y ys ih =>
      intro e he
      simp only [runTouchMoves, List.mem_append] at he
      rcases he with he | he
      · exact updating_noChange cfg key _ e he
      · exact ih _ e he

/-- C7: a gesture cancel after a drag (touch start followed by at least one
touch move, with arbitrary rubber-band power function `pw`) restores the
scroller translate exactly to the value captured at gesture start, leaves
the column idle (`isMoving = false`), and the whole gesture — moves
included — emits no `change` call. -/
theorem touchCancel_restores (cfg : ColumnConfig α) (pw : α → α) (key : String)
    (s0 : ColumnState α) (y0 : α) (ys : List α) (hys : ys ≠ []) :
    (handleTouchCancel
        (runTouchMoves cfg pw key (handleTouchStart s0 y0) ys).1).scrollerTranslate
      = s0.scrollerTranslate ∧
    (handleTouchCancel
        (runTouchMoves cfg pw key (handleTouchStart s0 y0) ys).1).isMoving = false ∧
    ∀ e ∈ (runTouchMoves cfg pw key (handleTouchStart s0 y0) ys).2,
      isChangeEvent e = false := by
  obtain ⟨y, ys2, rfl⟩ := List.exists_cons_of_ne_nil hys
  have hmov := runTouchMoves_isMoving cfg pw key y ys2 (handleTouchStart s0 y0)
  have hstart := runTouchMoves_start cfg pw key (y :: ys2) (handleTouchStart s0 y0)
  have hcancel : handleTouchCancel
      (runTouchMoves cfg pw key (handleTouchStart s0 y0) (y :: ys2)).1
      = ⟨(runTouchMoves cfg pw key (handleTouchStart s0 y0) (y :: ys2)).1.startScrollerTranslate,
          0, 0, false⟩ := by
    unfold handleTouchCancel
    rw [hmov]
    simp
  refine ⟨?_, ?_, runTouchMoves_noChange cfg pw key _ _⟩
  · rw [hcancel]
    exact hstart
  · rw [hcancel]

/-- C7 witness: on the default geometry, starting a drag at translate 18
(touch y 100), moving to y 130 and y 95, then cancelling, restores
translate 18 and leaves the column idle. -/
theorem touchCancel_restores_witness :
    (handleTouchCancel
        (runTouchMoves cfgStd id "col"
          (handleTouchStart ⟨18, 0, 0, false⟩ 100) [130, 95]).1).scrollerTranslate
      = 18 ∧
    (handleTouchCancel
        (runTouchMoves cfgStd id "col"
          (handleTouchStart ⟨18, 0, 0, false⟩ 100) [130, 95]).1).isMoving = false := by
  have h := touchCancel_restores (α := ℚ) cfgStd id "col" ⟨18, 0, 0, false⟩ 100
    [130, 95] (by simp)
  exact ⟨h.1, h.2.1⟩

/-- JavaScript `findIndex` returns −1 when no element satisfies the
predicate. -/
theorem jsFindIndex_of_none (p : String → Bool) (l : List String)
    (h : ∀ v ∈ l, p v = false) : jsFindIndex p l = -1 := by
  induction l with
  | nil => rfl
  | cons v vs ih =>
      have hv := h v (by simp)
      have ht := ih (fun w hw => h w (by simp [hw]))
      norm_num [jsFindIndex, hv, ht]

/-- JavaScript `findIndex` is nonnegative when some element satisfies the
predicate. -/
theorem jsFindIndex_nonneg (p : String → Bool) (l : List String) (x : String)
    (hx : x ∈ l) (hp : p x = true) : 0 ≤ jsFindIndex p l := by
  induction l with
  | nil => cases hx
  | cons v vs ih =>
      by_cases hv : p v = true
      · simp [jsFindIndex, hv]
      · have hx2 : x ∈ vs := by
          rcases List.mem_cons.mp hx with rfl | hmem
          · exact absurd hp hv
          · exact hmem
        have hr := ih hx2
        simp only [jsFindIndex]
        rw [if_neg hv, if_neg (not_lt.mpr hr)]
        omega

/-- A nonnegative JavaScript `findIndex` result indexes an element
satisfying the predicate. -/
theorem jsFindIndex_get (p : String → Bool) (l : List String)
    (h : 0 ≤ jsFindIndex p l) :
    ∃ y, l.get? (jsFindIndex p l).toNat = some y ∧ p y = true := by
  induction l with
  | nil => norm_num [jsFindIndex] at h
  | cons v vs ih =>
      by_cases hv : p v = true
      · exact ⟨v, by simp [jsFindIndex, hv], hv⟩
      · have hr : 0 ≤ jsFindIndex p vs := by
          by_contra hneg
          push_neg at hneg
          simp only [jsFindIndex] at h
          rw [if_neg hv, if_pos hneg] at h
          norm_num at h
        obtain ⟨y, hy, hpy⟩ := ih hr
        refine ⟨y, ?_, hpy⟩
        simp only [jsFindIndex]
        rw [if_neg hv, if_neg (not_lt.mpr hr)]
        have htn : (jsFindIndex p vs + 1).toNat = (jsFindIndex p vs).toNat + 1 := by
          omega
        rw [htn]
        simpa using hy

/-- No element strictly before the JavaScript `findIndex` result satisfies
the predicate. -/
theorem jsFindIndex_first (p : String → Bool) (l : List String) :
    ∀ j : ℕ, (j : ℤ) < jsFindIndex p l →
      ∀ y, l.get? j = some y → p y = false := by
  induction l with
  | nil => intro j hj y hy; simp at hy
  | cons v vs ih =>
      intro j hj y hy
      by_cases hv : p v = true
      · simp only [jsFindIndex, if_pos hv] at hj
        omega
      · simp only [jsFindIndex, if_neg hv] at hj
        by_cases hr : jsFindIndex p vs < 0
        · rw [if_pos hr] at hj
          omega
        · rw [if_neg hr] at hj
          cases j with
          | zero =>
              simp only [List.get?_cons_zero, Option.some.injEq] at hy
              rw [← hy]
              simpa using hv
          | succ j2 =>
              simp only [List.get?_cons_succ] at hy
              refine ih j2 ?_ y hy
              push_cast at hj
              omega

/-- C10: when a column's committed value (possibly absent) matches no
registered option, the derived selected index is 0 and the effect snaps the
offset to the settle offset of index 0; when the value does match, the
derived index is the first matching position in visual order. -/
theorem selectedIndex_fallback (cfg : ColumnConfig α) (value : Option String) :
    ((∀ v ∈ cfg.options, value ≠ some v) →
      selectedIndex cfg value = 0 ∧
      columnEffectTranslate cfg value = settleOffset cfg 0) ∧
    (∀ x : String, value = some x → x ∈ cfg.options →
      cfg.options.get? (selectedIndex cfg value).toNat = some x ∧
      ∀ j : ℕ, (j : ℤ) < selectedIndex cfg value →
        cfg.options.get? j ≠ some x) := by
  constructor
  · intro hnone
    have hfi : jsFindIndex (fun v => decide (value = some v)) cfg.options = -1 := by
      apply jsFindIndex_of_none
      intro v hv
      exact decide_eq_false (hnone v hv)
    have hsel : selectedIndex cfg value = 0 := by
      unfold selectedIndex
      rw [hfi]
      norm_num
    refine ⟨hsel, ?_⟩
    unfold columnEffectTranslate settleOffset
    rw [hsel]
  · intro x hx hmem
    have hp : (fun v => decide (value = some v)) x = true := by simp [hx]
    have hnn := jsFindIndex_nonneg (fun v => decide (value = some v))
      cfg.options x hmem hp
    have hsel : selectedIndex cfg value
        = jsFindIndex (fun v => decide (value = some v)) cfg.options := by
      unfold selectedIndex
      rw [if_neg (not_lt.mpr hnn)]
    constructor
    · obtain ⟨y, hy, hpy⟩ := jsFindIndex_get _ _ hnn
      rw [hsel]
      have hvy : value = some y := of_decide_eq_true hpy
      rw [hx] at hvy
      injection hvy with hxy
      rw [← hxy] at hy
      exact hy
    · intro j hj hget
      rw [hsel] at hj
      have hfalse := jsFindIndex_first _ _ j hj x hget
      rw [hx] at hfalse
      simp at hfalse

/-- C10 witness: on the default geometry a committed value "zzz" matching
no option derives index 0 and the settle offset of index 0. -/
theorem selectedIndex_fallback_witness :
    selectedIndex cfgStd (some "zzz") = 0 ∧
    columnEffectTranslate cfgStd (some "zzz") = settleOffset cfgStd 0 :=
  (selectedIndex_fallback (α := ℚ) cfgStd (some "zzz")).1 (by decide)

end MobilePicker
